import Mathlib

/-!
# A verification development for the JobSpy browser scrapers

This file gives a shallow embedding, in Lean, of the pure logic of the two
Playwright-driven scrapers of the repository, `JapanDev`
(`src/jobspy/scrapers/japandev.py`) and `TokyoDev`
(`src/jobspy/scrapers/tokyodev.py`), together with the task-status logic of
`src/api_server.py`, and proves properties of the embedded definitions.

Browser effects (navigation, element lookup, waits) are modelled by explicit
environment data: every value the Python code reads from a page is a field of
an environment structure, and every wait that can time out is a boolean flag
of that environment.  Python exceptions are modelled with `Except`: an
operation that can raise returns `Except String α`, a `try/except` block is an
explicit `match` on that result.  Python `float` amounts are modelled as
rationals (exact for every value the scrapers handle), and calendar dates as
an abstract day number (`date.today()` becomes a `today` parameter threaded
through the call).
-/

namespace JobSpy

/-! ## Python string primitives

Helpers modelling the Python string operations used by the scrapers.  All
inputs exercised by the scrapers are ordinary text, for which the ASCII-level
`Char` predicates of Lean agree with Python's semantics.
-/

/-- Decidable equality for `Except`, so concrete runs of the embedded
fallible operations can be settled by `decide`. -/
instance {e a : Type} [DecidableEq e] [DecidableEq a] : DecidableEq (Except e a) := fun x y =>
  match x, y with
  | Except.ok u, Except.ok v =>
    if h : u = v then Decidable.isTrue (by rw [h])
    else Decidable.isFalse (by intro hc; cases hc; exact h rfl)
  | Except.error u, Except.error v =>
    if h : u = v then Decidable.isTrue (by rw [h])
    else Decidable.isFalse (by intro hc; cases hc; exact h rfl)
  | Except.ok _, Except.error _ => Decidable.isFalse (by intro hc; cases hc)
  | Except.error _, Except.ok _ => Decidable.isFalse (by intro hc; cases hc)

/-- Python `str.strip()`: remove leading and trailing whitespace. -/
def pyStrip (s : String) : String :=
  String.mk (((s.toList.dropWhile Char.isWhitespace).reverse.dropWhile
    Char.isWhitespace).reverse)

/-- Python `str.lower()`. -/
def pyLower (s : String) : String := String.mk (s.toList.map Char.toLower)

/-- Python `str.upper()`. -/
def pyUpper (s : String) : String := String.mk (s.toList.map Char.toUpper)

/-- Python `s.replace(",", "")`, as used by both salary parsers: drop every
comma of the string. -/
def pyDropCommas (s : String) : String := String.mk (s.toList.filter (fun c => c ≠ ','))

/-- Python `s.replace("-", " ")` (TokyoDev fallback title). -/
def pyDashToSpace (s : String) : String :=
  String.mk (s.toList.map (fun c => if c = '-' then ' ' else c))

/-- Test whether `a` is a prefix of `b` (over `Char` lists, by decidable equality). -/
def isPrefixList : List Char → List Char → Bool
  | [], _ => true
  | _ :: _, [] => false
  | a :: as, b :: bs => a = b && isPrefixList as bs

/-- Test whether `needle` occurs as a contiguous infix of `hay`. -/
def isInfixList (needle : List Char) : List Char → Bool
  | [] => needle.isEmpty
  | c :: t => isPrefixList needle (c :: t) || isInfixList needle t

/-- Python `needle in hay` on strings: substring containment. -/
def strContains (hay needle : String) : Bool := isInfixList needle.toList hay.toList

/-- Splitting on whitespace runs: the words of a character list, in order. -/
def wordsAux : List Char → List Char → List (List Char)
  | [], acc => if acc = [] then [] else [acc.reverse]
  | c :: cs, acc =>
    if c.isWhitespace then
      if acc = [] then wordsAux cs [] else acc.reverse :: wordsAux cs []
    else wordsAux cs (c :: acc)

/-- Python `str.split()` with no argument: split on whitespace runs,
discarding empty pieces. -/
def pySplitWs (s : String) : List String := (wordsAux s.toList []).map String.mk

/-- Python `" ".join(t.split())`: collapse internal whitespace runs to single
spaces and trim the ends. -/
def wsNormalize (s : String) : String := String.intercalate " " (pySplitWs s)

/-- Python `str.title()`: upper-case each letter that starts a run of
letters, lower-case the other letters. -/
def pyTitleCase (s : String) : String :=
  String.mk ((s.toList.foldl
    (fun (acc : List Char × Bool) c =>
      if c.isAlpha then (acc.1 ++ [if acc.2 then c.toLower else c.toUpper], true)
      else (acc.1 ++ [c], false))
    ([], false)).1)

/-- Python `url.rsplit("/", 1)[-1]`: the part after the last slash (the whole
string when it has no slash). -/
def lastUrlSegment (s : String) : String :=
  String.mk ((s.toList.reverse.takeWhile (fun c => c ≠ '/')).reverse)

/-- Python list indexing `l[i]`, raising `IndexError` when out of range. -/
def pyIndex {α : Type} (l : List α) (i : Nat) : Except String α :=
  match l.get? i with
  | some x => Except.ok x
  | none => Except.error "IndexError"

/-- Python `a or b` where `a` is an optional string and `""` counts as falsy
(`None` and `""` both fall through to `b`). -/
def pyOrS (a b : Option String) : Option String :=
  match a with
  | some s => if s = "" then b else some s
  | none => b

/-- Python `a or b` where the fallback `b` is a plain string. -/
def pyOrStr (a : Option String) (b : String) : String :=
  match a with
  | some s => if s = "" then b else s
  | none => b

/-! ## The numeric-token scanners (`re.findall`)

`JapanDev._parse_salary_to_comp` runs `re.findall(r"(\d+(?:\.\d+)?)", text)`:
every maximal numeric token, left to right.  `TokyoDev._parse_salary_to_comp`
runs `re.findall(r"(\d+(?:\.\d+)?)\s*M", text.upper())`: only tokens followed
(after optional whitespace) by the magnitude letter `M`.  Both scanners below
implement Python's scan semantics: try a match at each position left to
right, emit the captured group and resume after the match, else advance one
character.  Because `\d+` runs are matched greedily and a shorter digit run is
always followed by another digit (which can satisfy neither `\.` nor `M`),
the greedy run is the only candidate at each start position, so no further
backtracking is needed.
-/

/-- Split off the maximal leading run of decimal digits. -/
def spanDigits : List Char → List Char × List Char
  | [] => ([], [])
  | c :: cs =>
    if c.isDigit then
      ((c :: (spanDigits cs).1), (spanDigits cs).2)
    else ([], c :: cs)

theorem spanDigits_snd_length_le (l : List Char) : (spanDigits l).2.length ≤ l.length := by
  induction l with
  | nil => simp [spanDigits]
  | cons c cs ih =>
    simp only [spanDigits]
    by_cases h : c.isDigit
    · simp only [h, if_true]
      exact Nat.le_succ_of_le ih
    · simp [h]

/-- One numeric token (`\d+(?:\.\d+)?`) matched at the head of the input
(first character `c`, already known to be a digit), returning the captured
token and the rest of the input.  The fractional part is taken only when at
least one digit follows the dot, as in the regex. -/
def matchNum (c : Char) (cs : List Char) : List Char × List Char :=
  let ds := c :: (spanDigits cs).1
  let rest := (spanDigits cs).2
  if rest.head? = some '.' ∧ (spanDigits rest.tail).1 ≠ [] then
    (ds ++ '.' :: (spanDigits rest.tail).1, (spanDigits rest.tail).2)
  else (ds, rest)

theorem matchNum_rest_length_le (c : Char) (cs : List Char) :
    (matchNum c cs).2.length ≤ cs.length := by
  unfold matchNum
  have h1 := spanDigits_snd_length_le cs
  by_cases h : (spanDigits cs).2.head? = some '.' ∧ (spanDigits ((spanDigits cs).2.tail)).1 ≠ []
  · rw [if_pos h]
    have h2 := spanDigits_snd_length_le ((spanDigits cs).2.tail)
    have h3 : (spanDigits cs).2.tail.length = (spanDigits cs).2.length - 1 :=
      List.length_tail _
    dsimp only
    omega
  · rw [if_neg h]
    exact h1

/-- The scan loop of `re.findall` for the JapanDev regex, with an explicit
fuel parameter so the recursion is structural (and so computes inside the
kernel).  Every scan step consumes at least one character, so the fuel
`length + 1` that `findallNum` passes never runs out and the `0` branch is
unreachable. -/
def findallNumFuel : Nat → List Char → List (List Char)
  | 0, _ => []
  | _ + 1, [] => []
  | fuel + 1, c :: cs =>
    if c.isDigit then (matchNum c cs).1 :: findallNumFuel fuel (matchNum c cs).2
    else findallNumFuel fuel cs

/-- Model of `re.findall(r"(\d+(?:\.\d+)?)", ·)` over a character list: every
maximal numeric token, left to right (the JapanDev salary regex). -/
def findallNum (l : List Char) : List (List Char) := findallNumFuel (l.length + 1) l

/-- The `\s*M` tail of the TokyoDev salary regex: skip whitespace, then
require the letter `M`, returning the input after it. -/
def expectM (l : List Char) : Option (List Char) :=
  let l2 := l.dropWhile (fun c => c.isWhitespace)
  if l2.head? = some 'M' then some l2.tail else none

theorem expectM_length_lt (l r : List Char) (h : expectM l = some r) :
    r.length < l.length := by
  unfold expectM at h
  have hd : (l.dropWhile (fun c => c.isWhitespace)).length ≤ l.length :=
    (List.dropWhile_sublist _).length_le
  by_cases hw : (l.dropWhile (fun c => c.isWhitespace)).head? = some 'M'
  · rw [if_pos hw] at h
    cases h
    have hne : l.dropWhile (fun c => c.isWhitespace) ≠ [] := by
      intro he
      rw [he] at hw
      exact absurd hw (by simp)
    have ht : (l.dropWhile (fun c => c.isWhitespace)).tail.length =
        (l.dropWhile (fun c => c.isWhitespace)).length - 1 := List.length_tail _
    have hpos : 0 < (l.dropWhile (fun c => c.isWhitespace)).length :=
      List.length_pos.mpr hne
    omega
  · rw [if_neg hw] at h
    exact absurd h (by simp)

/-- A match of `(\d+(?:\.\d+)?)\s*M` at the head of the input (first
character `c`, a digit): the captured numeric token together with the rest of
the input after the `M`, or `none` when no `M` follows.  The regex only
succeeds with the maximal digit runs (a shorter run is followed by a digit,
which satisfies neither `\.` nor `\s*M`), tried first with and then without
the fractional part. -/
def matchNumM (c : Char) (cs : List Char) : Option (List Char × List Char) :=
  let ds := c :: (spanDigits cs).1
  let rest := (spanDigits cs).2
  let fracCase : Option (List Char × List Char) :=
    if rest.head? = some '.' ∧ (spanDigits rest.tail).1 ≠ [] then
      match expectM ((spanDigits rest.tail).2) with
      | some r => some (ds ++ '.' :: (spanDigits rest.tail).1, r)
      | none => none
    else none
  match fracCase with
  | some p => some p
  | none =>
    match expectM rest with
    | some r => some (ds, r)
    | none => none

theorem matchNumM_rest_length_le (c : Char) (cs : List Char) (tok r : List Char)
    (h : matchNumM c cs = some (tok, r)) : r.length < cs.length + 1 := by
  unfold matchNumM at h
  simp only [] at h
  have h1 := spanDigits_snd_length_le cs
  by_cases hc : (spanDigits cs).2.head? = some '.' ∧ (spanDigits ((spanDigits cs).2.tail)).1 ≠ []
  · rw [if_pos hc] at h
    have h3 : (spanDigits cs).2.tail.length = (spanDigits cs).2.length - 1 :=
      List.length_tail _
    have h2 := spanDigits_snd_length_le ((spanDigits cs).2.tail)
    cases he : expectM ((spanDigits ((spanDigits cs).2.tail)).2) with
    | none =>
      rw [he] at h
      simp only at h
      cases hm : expectM ((spanDigits cs).2) with
      | none => rw [hm] at h; exact absurd h (by simp)
      | some r2 =>
        rw [hm] at h
        simp only [Option.some.injEq, Prod.mk.injEq] at h
        obtain ⟨-, h9⟩ := h
        subst h9
        have := expectM_length_lt _ _ hm
        omega
    | some r2 =>
      rw [he] at h
      simp only [Option.some.injEq, Prod.mk.injEq] at h
      obtain ⟨-, h9⟩ := h
      subst h9
      have := expectM_length_lt _ _ he
      omega
  · rw [if_neg hc] at h
    simp only at h
    cases hm : expectM ((spanDigits cs).2) with
    | none => rw [hm] at h; exact absurd h (by simp)
    | some r2 =>
      rw [hm] at h
      simp only [Option.some.injEq, Prod.mk.injEq] at h
      obtain ⟨-, h9⟩ := h
      subst h9
      have := expectM_length_lt _ _ hm
      omega

/-- The scan loop of `re.findall` for the TokyoDev regex, with an explicit
fuel parameter so the recursion is structural; the fuel `length + 1` that
`findallNumM` passes never runs out (a successful match consumes at least
the leading digit and the `M`). -/
def findallNumMFuel : Nat → List Char → List (List Char)
  | 0, _ => []
  | _ + 1, [] => []
  | fuel + 1, c :: cs =>
    if c.isDigit then
      match matchNumM c cs with
      | some (tok, r) => tok :: findallNumMFuel fuel r
      | none => findallNumMFuel fuel cs
    else findallNumMFuel fuel cs

/-- Model of `re.findall(r"(\d+(?:\.\d+)?)\s*M", ·)` over a character list:
the numeric tokens followed by the magnitude letter `M`, left to right (the
TokyoDev salary regex, which the source applies to the upper-cased text). -/
def findallNumM (l : List Char) : List (List Char) := findallNumMFuel (l.length + 1) l

/-! ## The numeric value of a token (Python `float`)

`float` applied to the strings captured by either regex: an integer part in
decimal digits, optionally a dot and a fractional part.  Amounts are modelled
as exact rationals; every value handled by the scrapers is well inside the
range where Python's binary floats are exact for the arithmetic performed
(one multiplication by 10^6). -/

/-- Decimal value of a digit run. -/
def digitsVal (ds : List Char) : Nat :=
  ds.foldl (fun acc c => acc * 10 + (c.toNat - '0'.toNat)) 0

/-- Python `float(s)`, restricted to the token shapes the salary regexes can
produce: `digits` or `digits.digits`.  Returns `none` (a `ValueError`) on any
other shape.  The value `ip.fp` is the exact rational
`(ip·10^k + fp) / 10^k` with `k` the number of fraction digits, built with
`mkRat` so that it computes inside the kernel. -/
def pyFloat (s : String) : Option ℚ :=
  let l := s.toList
  let ip := (spanDigits l).1
  let rest := (spanDigits l).2
  if ip = [] then none
  else if rest = [] then some (mkRat (digitsVal ip) 1)
  else if rest.head? = some '.' then
    let fp := (spanDigits rest.tail).1
    if fp = [] then none
    else if (spanDigits rest.tail).2 = [] then
      some (mkRat (digitsVal ip * 10 ^ fp.length + digitsVal fp) (10 ^ fp.length))
    else none
  else none

/-- The shape of a token captured by either salary regex: a non-empty digit
run, or two non-empty digit runs joined by a dot.  Python `float` accepts
every such token. -/
def NumTok (t : List Char) : Prop :=
  (t ≠ [] ∧ ∀ c ∈ t, c.isDigit = true) ∨
  ∃ a b, t = a ++ '.' :: b ∧ a ≠ [] ∧ b ≠ [] ∧
    (∀ c ∈ a, c.isDigit = true) ∧ (∀ c ∈ b, c.isDigit = true)

/-- Multiplication of an exact float value by a natural scale factor
(`float(x) * 1_000_000` in the source), again via `mkRat` so that it
computes inside the kernel; equals `v * n`. -/
def ratScale (v : ℚ) (n : Nat) : ℚ := mkRat (v.num * n) v.den

/-! ## The compensation data model

`Compensation` mirrors `jobspy.model.Compensation` as used by the two
scrapers (interval, min, max, currency); `CompensationInterval.YEARLY` is the
only interval either scraper emits. -/

inductive CompensationInterval
  | yearly
deriving DecidableEq, Repr

structure Compensation where
  interval : CompensationInterval
  minAmount : ℚ
  maxAmount : Option ℚ
  currency : String
deriving DecidableEq, Repr

/-- The body of the `try` block of `JapanDev._parse_salary_to_comp`
(japandev.py lines 103-111): index the token list, convert with `float`,
scale by 1,000,000, build the record with currency `"JPY"` and a yearly
interval. -/
def japanDevParseAttempt (toks : List String) : Except String (Option Compensation) :=
  match pyIndex toks 0 with
  | Except.error e => Except.error e
  | Except.ok m0 =>
    match pyFloat m0 with
    | none => Except.error "ValueError"
    | some v0 =>
      let maxPart : Except String (Option ℚ) :=
        if toks.length > 1 then
          match pyIndex toks 1 with
          | Except.error e => Except.error e
          | Except.ok m1 =>
            match pyFloat m1 with
            | none => Except.error "ValueError"
            | some v1 => Except.ok (some (ratScale v1 1000000))
        else Except.ok none
      match maxPart with
      | Except.error e => Except.error e
      | Except.ok maxA =>
        Except.ok (some
          { interval := CompensationInterval.yearly
            minAmount := ratScale v0 1000000
            maxAmount := maxA
            currency := "JPY" })

/-- Embedding of `JapanDev._parse_salary_to_comp` (japandev.py lines 93-113).
The `except` around the `try` block swallows any internal error into `None`,
so the function as a whole returns `Except.ok`.  The regex
`(\d+(?:\.\d+)?)` captures every numeric token of the comma-stripped text,
and each amount is multiplied by 1,000,000 regardless of any magnitude
suffix. -/
def japanDevParseSalaryToComp (salaryText : Option String) :
    Except String (Option Compensation) :=
  match salaryText with
  | none => Except.ok none
  | some s =>
    if s = "" then Except.ok none
    else
      let toks := (findallNum (pyDropCommas s).toList).map String.mk
      if toks.length < 1 then Except.ok none
      else
        match japanDevParseAttempt toks with
        | Except.error _ => Except.ok none
        | Except.ok v => Except.ok v

/-- The list comprehension `[float(x) * 1_000_000 for x in nums]` of
tokyodev.py line 78: each conversion may raise, and it sits outside any
`try`, so a failure would propagate out of the parser. -/
def floatAmounts (nums : List String) : Except String (List ℚ) :=
  match nums with
  | [] => Except.ok []
  | x :: xs =>
    match pyFloat x with
    | none => Except.error "ValueError"
    | some v =>
      match floatAmounts xs with
      | Except.error e => Except.error e
      | Except.ok vs => Except.ok (ratScale v 1000000 :: vs)

/-- Embedding of `TokyoDev._parse_salary_to_comp` (tokyodev.py lines 60-87).
The float conversions and the indexing of `amounts` happen outside any
`try`, so an internal error would propagate (`Except.error`); the proofs
below show this never happens.  Only numeric tokens followed by `M` in the
upper-cased text are captured, and the currency falls back to `"JPY"` when
neither `¥` nor `JPY` occurs. -/
def tokyoDevParseSalaryToComp (salaryText : Option String) :
    Except String (Option Compensation) :=
  match salaryText with
  | none => Except.ok none
  | some s =>
    if s = "" then Except.ok none
    else
      let text := pyStrip (pyDropCommas s)
      let currency : Option String :=
        if strContains text "¥" || strContains (pyUpper text) "JPY" then some "JPY" else none
      let nums := (findallNumM (pyUpper text).toList).map String.mk
      if nums = [] then Except.ok none
      else
        match floatAmounts nums with
        | Except.error e => Except.error e
        | Except.ok amounts =>
          match pyIndex amounts 0 with
          | Except.error e => Except.error e
          | Except.ok minA =>
            let maxA : Option ℚ := if amounts.length > 1 then amounts.get? 1 else none
            Except.ok (some
              { interval := CompensationInterval.yearly
                minAmount := minA
                maxAmount := maxA
                currency := match currency with | some c => c | none => "JPY" })

/-! ## The job data model

`JobPost` and `Location` mirror the fields of `jobspy.model` that the two
scrapers set.  Calendar dates are an abstract day number: `date.today()` is
the `today` value of the scrape environment. -/

abbrev PyDate := Nat

inductive Country
  | japan
deriving DecidableEq, Repr

structure Location where
  country : Country
  city : String
deriving DecidableEq, Repr

structure JobPost where
  title : String
  companyName : Option String
  jobUrl : String
  jobUrlDirect : Option String
  location : Option Location
  description : Option String
  compensation : Option Compensation
  datePosted : PyDate
  isRemote : Option Bool
  jobType : Option (List String)
  skills : Option (List String)
deriving DecidableEq, Repr

/-! ## URL helpers -/

/-- The JapanDev listing root (`JapanDev.__init__`). -/
def jdBaseUrl : String := "https://japan-dev.com/japan-jobs-relocation"

/-- The TokyoDev site root (`TokyoDev.__init__`). -/
def tdBaseUrl : String := "https://www.tokyodev.com"

/-- The scheme-and-host part of a URL: everything up to the first `/` after
the `://` marker. -/
def urlOriginAux : List Char → List Char → List Char
  | acc, [] => acc.reverse
  | acc, c :: t =>
    if isPrefixList [':', '/', '/'] (c :: t) then
      acc.reverse ++ [':', '/', '/'] ++ (t.drop 2).takeWhile (fun x => x ≠ '/')
    else urlOriginAux (c :: acc) t

def urlOrigin (s : String) : String := String.mk (urlOriginAux [] s.toList)

/-- Everything up to and including the last `/` of a URL. -/
def dropLastUrlSegment (s : String) : String :=
  String.mk ((s.toList.reverse.dropWhile (fun c => c ≠ '/')).reverse)

/-- Model of `urllib.parse.urljoin` covering the href shapes these sites
produce: an absolute URL passes through, a root-relative href attaches to the
scheme-and-host of the base, any other href replaces the last path segment of
the base. -/
def pyUrljoin (base href : String) : String :=
  if strContains href "://" then href
  else if isPrefixList ['/'] href.toList then urlOrigin base ++ href
  else dropLastUrlSegment base ++ href

/-! ## Waits and the task report

Playwright waits are bounded blocking operations whose expiry raises a
`TimeoutError`.  The environments record, for each wait the code performs,
whether it would expire; a wait the code wraps in `try/except pass` is a
`guardedWait`. -/

/-- A bounded Playwright wait: expiry raises a `TimeoutError`. -/
def pyWait (timedOut : Bool) : Except String Unit :=
  if timedOut then Except.error "TimeoutError" else Except.ok ()

/-- A bounded wait wrapped in `try: ... except Exception: pass`: its expiry is
swallowed and execution proceeds. -/
def guardedWait (timedOut : Bool) : Except String Unit :=
  match pyWait timedOut with
  | Except.error _ => Except.ok ()
  | Except.ok _ => Except.ok ()

inductive TaskStatus
  | completed (count : Nat) (jobs : List JobPost)
  | failed (error : String)
deriving DecidableEq, Repr

/-- The tail of `run_scraper_task` (api_server.py lines 60-112): a scrape call
that returns normally is stored as a completed task with its record count;
any exception escaping the scrape is stored as a failed task carrying the
error text. -/
def reportTask (r : Except String (List JobPost)) : TaskStatus :=
  match r with
  | Except.ok jobs => TaskStatus.completed jobs.length jobs
  | Except.error e => TaskStatus.failed e

/-! ## The capped accumulation loop

Both scrape loops have the shape `for x in xs: if len(job_list) >=
results_wanted: break; ...maybe append one record...`; `capLoop` is that
shape, with `f x = none` for an iteration that appends nothing (a `continue`
or a swallowed per-item failure). -/

def capLoop {α : Type} (f : α → Option JobPost) (n : Nat) :
    List α → List JobPost → List JobPost
  | [], acc => acc
  | x :: xs, acc =>
    if n ≤ acc.length then acc
    else
      match f x with
      | none => capLoop f n xs acc
      | some j => capLoop f n xs (acc ++ [j])

/-! ## The JapanDev scraper -/

/-- The dictionary produced by `JapanDev._extract_detail_fields` (japandev.py
lines 115-184): every field optional.  The extraction chains read page data;
their outcome is environment data here. -/
structure JdDetailFields where
  title : Option String
  companyName : Option String
  locationText : Option String
  salaryText : Option String
  jobUrlDirect : Option String
  description : Option String
  datePosted : Option PyDate
deriving DecidableEq, Repr

/-- One listing card of `JapanDev.scrape`: the data the card loop reads.
`anchorText`/`href` come from the title anchor after the two-selector
fallback (`.job-item__title`, then `a.title.link`); `anchorText = none`
models a card where neither selector matches.  `detail` is the outcome of
`detail_page.goto` plus `_extract_detail_fields`: an `error` models the
raising path handled at japandev.py lines 416-426. -/
structure JdCard where
  anchorText : Option String
  href : Option String
  companyLogoAlt : Option String
  detail : Except String JdDetailFields
deriving Repr

/-- One iteration of the card loop of `JapanDev.scrape` (japandev.py lines
388-455): `none` models `continue` (an explicit `continue` or the per-card
`except` handler), `some` a `JobPost` appended to the result list.  On a
failed detail visit the degraded detail dictionary of lines 418-426 is used:
title from the listing anchor, location `"Japan"`, posted date today. -/
def japanDevProcessCard (today : PyDate) (card : JdCard) : Option JobPost :=
  match card.anchorText with
  | none => none
  | some rawTitle =>
    let title := pyStrip rawTitle
    match card.href with
    | none => none
    | some href =>
      if href = "" then none
      else
        let jobUrl := pyUrljoin jdBaseUrl href
        let companyName := card.companyLogoAlt
        let detail : JdDetailFields :=
          match card.detail with
          | Except.ok d => d
          | Except.error _ =>
            { title := some title
              companyName := companyName
              locationText := some "Japan"
              salaryText := none
              jobUrlDirect := none
              description := none
              datePosted := some today }
        match japanDevParseSalaryToComp detail.salaryText with
        | Except.error _ => none
        | Except.ok comp =>
          some { title := pyOrStr detail.title title
                 companyName := pyOrS detail.companyName companyName
                 jobUrl := jobUrl
                 jobUrlDirect := detail.jobUrlDirect
                 location := some { country := Country.japan
                                    city := pyOrStr detail.locationText "Japan" }
                 description := detail.description
                 compensation := comp
                 datePosted := match detail.datePosted with
                               | some d => d
                               | none => today
                 isRemote := none
                 jobType := none
                 skills := none }

/-- The environment of one `JapanDev.scrape` call: the request data and
everything the browser session would yield. -/
structure JdEnv where
  resultsWanted : Nat
  today : PyDate
  /-- Whether `page.goto` plus `wait_for_selector(".filters")` succeed (japandev.py
  lines 350-355); `false` is the early-return path. -/
  initialLoadOk : Bool
  /-- the search-box settlement wait inside `_apply_filters` expires
  (guarded, lines 261-264) -/
  searchSettleTimedOut : Bool
  /-- the final settlement wait inside `_apply_filters` expires (guarded,
  lines 304-309) -/
  filtersSettleTimedOut : Bool
  /-- the scrape's own post-filter settlement wait expires (NOT guarded,
  line 375) -/
  postFilterSettleTimedOut : Bool
  /-- the card wait of line 380 expires (guarded) -/
  cardsWaitTimedOut : Bool
  /-- the `.job-item` cards -/
  primaryCards : List JdCard
  /-- the `.top-jobs__job-item` cards, used when the primary list is empty -/
  secondaryCards : List JdCard

/-- Embedding of `JapanDev._apply_filters` (japandev.py lines 237-309) at the
level of its exception behaviour: the search settlement wait and the final
settlement wait are both inside `try/except pass`, and `_click_filter`
catches its own failures, so the call returns normally.  (Filter clicks only
change which cards the site shows — data `JdEnv` already fixes.) -/
def japanDevApplyFilters (env : JdEnv) : Except String Unit :=
  match guardedWait env.searchSettleTimedOut with
  | Except.error e => Except.error e
  | Except.ok _ => guardedWait env.filtersSettleTimedOut

/-- Embedding of `JapanDev.scrape` (japandev.py lines 311-457).  The
`Except.error` results model exceptions escaping `scrape` into the task
runner; note the unguarded settlement wait of line 375 sits between filter
application and the card loop. -/
def japanDevScrape (env : JdEnv) : Except String (List JobPost) :=
  if env.initialLoadOk = false then Except.ok []
  else
    match japanDevApplyFilters env with
    | Except.error e => Except.error e
    | Except.ok _ =>
      match pyWait env.postFilterSettleTimedOut with
      | Except.error e => Except.error e
      | Except.ok _ =>
        match guardedWait env.cardsWaitTimedOut with
        | Except.error e => Except.error e
        | Except.ok _ =>
          let cards := if env.primaryCards.isEmpty then env.secondaryCards
                       else env.primaryCards
          Except.ok (capLoop (japanDevProcessCard env.today) env.resultsWanted cards [])

/-! ## The TokyoDev scraper -/

/-- One tag anchor of a job row: its inner text (after the source's
`or ""`) and its href (after `or ""`). -/
structure TdTag where
  text : String
  href : String
deriving DecidableEq, Repr

/-- One job row (`div[data-collapsable-list-target='item']`) of a company
card.  `href = none` models both a missing title anchor (the raising locator,
handled by the row's `except: continue`) and a `None` href. -/
structure TdJobItem where
  href : Option String
  tags : List TdTag
deriving DecidableEq, Repr

/-- One company card (`ul.list-inside > li`) of the TokyoDev listing page.
`companyName = none` models the raising `h3 a` locator (tokyodev.py lines
158-161). -/
structure TdCompanyCard where
  companyName : Option String
  items : List TdJobItem
deriving DecidableEq, Repr

/-- The `JobSeed` dataclass of tokyodev.py lines 39-46. -/
structure JobSeed where
  jobUrl : String
  companyName : Option String
  skills : List String
  isRemoteHint : Bool
  salaryTextHint : Option String
  tagTexts : List String
deriving DecidableEq, Repr

/-- The tag-classification loop of `TokyoDev._extract_seeds_from_list_page`
(tokyodev.py lines 183-200), in iteration order: collects the stripped tag
texts; a tag linking to `/jobs/salary-data` becomes the salary hint (a later
such tag overwrites an earlier one); a tag containing "remote" sets the
remote hint; any other non-empty tag not containing "japanese" or "resident"
is a whitespace-normalized skill.  Result: (tag texts, salary hint, remote
hint, skills). -/
def classifyTags (tags : List TdTag) : List String × Option String × Bool × List String :=
  tags.foldl
    (fun acc a =>
      let t := pyStrip a.text
      let tagTexts := acc.1 ++ [t]
      let lt := pyLower t
      if strContains a.href "/jobs/salary-data" then
        (tagTexts, some t, acc.2.2.1, acc.2.2.2)
      else if strContains lt "remote" then
        (tagTexts, acc.2.1, true, acc.2.2.2)
      else if t ≠ "" ∧ strContains lt "japanese" = false ∧ strContains lt "resident" = false then
        (tagTexts, acc.2.1, acc.2.2.1, acc.2.2.2 ++ [wsNormalize t])
      else
        (tagTexts, acc.2.1, acc.2.2.1, acc.2.2.2))
    ([], none, false, [])

/-- One job row of the listing scan (tokyodev.py lines 166-213): `none`
models `continue` (missing or falsy href, or a raising locator). -/
def tdItemSeed (companyName : Option String) (item : TdJobItem) : Option JobSeed :=
  match item.href with
  | none => none
  | some href =>
    if href = "" then none
    else
      let cl := classifyTags item.tags
      some { jobUrl := pyUrljoin tdBaseUrl href
             companyName := companyName
             skills := cl.2.2.2
             isRemoteHint := cl.2.2.1
             salaryTextHint := cl.2.1
             tagTexts := cl.1 }

/-- The inner row loop of the listing scan, capped at `n` collected seeds. -/
def tdCollectItems (n : Nat) (companyName : Option String) :
    List TdJobItem → List JobSeed → List JobSeed
  | [], acc => acc
  | it :: its, acc =>
    if n ≤ acc.length then acc
    else
      match tdItemSeed companyName it with
      | none => tdCollectItems n companyName its acc
      | some s => tdCollectItems n companyName its (acc ++ [s])

/-- The outer company-card loop of the listing scan, capped at `n` collected
seeds. -/
def tdCollectCards (n : Nat) : List TdCompanyCard → List JobSeed → List JobSeed
  | [], acc => acc
  | c :: cs, acc =>
    if n ≤ acc.length then acc
    else tdCollectCards n cs (tdCollectItems n c.companyName c.items acc)

/-- The `uniq` dictionary loop of tokyodev.py lines 215-219
(`uniq.setdefault(s.job_url, s)`, then `list(uniq.values())` in insertion
order): keep the first seed for each URL, in first-occurrence order.  `seen`
is the set of URLs already in the dictionary. -/
def dedupByUrlAux (seen : List String) : List JobSeed → List JobSeed
  | [] => []
  | s :: rest =>
    if s.jobUrl ∈ seen then dedupByUrlAux seen rest
    else s :: dedupByUrlAux (s.jobUrl :: seen) rest

def dedupByUrl (seeds : List JobSeed) : List JobSeed := dedupByUrlAux [] seeds

/-- Embedding of `TokyoDev._extract_seeds_from_list_page` (tokyodev.py lines
147-219): the capped collection over company cards and job rows, THEN the
URL deduplication. -/
def tokyoDevExtractSeeds (cards : List TdCompanyCard) (resultsWanted : Nat) : List JobSeed :=
  dedupByUrl (tdCollectCards resultsWanted cards [])

/-- The salary-span selection loop of `TokyoDev._extract_header_requirements`
(tokyodev.py lines 246-256): the first whitespace-normalized header span
containing the yen glyph together with either a tilde or an M. -/
def tdHeaderSalary (spans : List String) : Option String :=
  (spans.map wsNormalize).find?
    (fun s2 => strContains s2 "¥" && (strContains s2 "~" || strContains (pyUpper s2) "M"))

/-- The tooltip loop of `TokyoDev._extract_header_requirements` (tokyodev.py
lines 258-267): the first tooltip text containing "Japanese" and the first
containing "English". -/
def tdHeaderLangReqs (tooltips : List String) : Option String × Option String :=
  tooltips.foldl
    (fun acc t =>
      let t2 := wsNormalize t
      ((if strContains t2 "Japanese" ∧ acc.1 = none then some t2 else acc.1),
       (if strContains t2 "English" ∧ acc.2 = none then some t2 else acc.2)))
    (none, none)

/-- The detail page reached from one seed: the data `TokyoDev.scrape` reads
from it.  `gotoOk = false` models a raising `goto`/Cloudflare wait (the whole
seed's `except` path); the smaller raising reads have their own fallbacks in
the source and are modelled by the optional fields.  The page exposes no
posted-date data: the source never reads one. -/
structure TdDetailPage where
  gotoOk : Bool
  h1Text : Option String
  headerCompany : Option String
  headerSalarySpans : List String
  headerTooltips : List String
  headerRemote : Option Bool
  prose : Option String
  bodyText : String
  applyHref : Option String

/-- One iteration of the seed loop of `TokyoDev.scrape` (tokyodev.py lines
332-409): `none` models the seed-level `except` path — the failure is logged
and NO record is appended; `some` is the `JobPost` of lines 390-402, whose
posted date is always `today` (`date.today()`, line 398). -/
def tokyoDevProcessSeed (today : PyDate) (seed : JobSeed) (dp : TdDetailPage) :
    Option JobPost :=
  if dp.gotoOk = false then none
  else
    let title :=
      match dp.h1Text with
      | some t => pyStrip t
      | none => pyTitleCase (pyDashToSpace (lastUrlSegment seed.jobUrl))
    let langReqs := tdHeaderLangReqs dp.headerTooltips
    let baseDescription :=
      match dp.prose with
      | some p => p
      | none => dp.bodyText
    let langBits :=
      (match langReqs.1 with | some j => [j] | none => [])
      ++ (match langReqs.2 with | some e => [e] | none => [])
    let description :=
      if langBits = [] then baseDescription
      else "Language requirements: " ++ String.intercalate " | " langBits
           ++ "\n\n" ++ baseDescription
    match tokyoDevParseSalaryToComp (pyOrS (tdHeaderSalary dp.headerSalarySpans) seed.salaryTextHint) with
    | Except.error _ => none
    | Except.ok compensation =>
      some { title := title
             companyName := pyOrS dp.headerCompany seed.companyName
             jobUrl := seed.jobUrl
             jobUrlDirect := dp.applyHref
             location := some { country := Country.japan, city := "Tokyo" }
             description := some description
             compensation := compensation
             datePosted := today
             isRemote := some (match dp.headerRemote with
                               | some b => b
                               | none => seed.isRemoteHint)
             jobType := some []
             skills := some seed.skills }

/-- The environment of one `TokyoDev.scrape` call. -/
structure TdEnv where
  resultsWanted : Nat
  today : PyDate
  /-- Whether `goto` + Cloudflare wait + `wait_for_selector("ul.list-inside")`
  succeed (tokyodev.py lines 322-328); `false` is the early-return path -/
  initialLoadOk : Bool
  listCards : List TdCompanyCard
  /-- the detail page reached by navigating to a job URL -/
  detailOf : String → TdDetailPage

/-- Embedding of `TokyoDev.scrape` (tokyodev.py lines 278-411). -/
def tokyoDevScrape (env : TdEnv) : Except String (List JobPost) :=
  if env.initialLoadOk = false then Except.ok []
  else
    let seeds := tokyoDevExtractSeeds env.listCards env.resultsWanted
    Except.ok (capLoop (fun s => tokyoDevProcessSeed env.today s (env.detailOf s.jobUrl))
      env.resultsWanted seeds [])

/-! ## The TokyoDev jobs URL -/

/-- Hex digit (upper case), for percent-encoding. -/
def hexDigit (n : Nat) : Char :=
  if n < 10 then Char.ofNat ('0'.toNat + n) else Char.ofNat ('A'.toNat + n - 10)

/-- Percent-encode one byte (given as its numeric value). -/
def percentByte (b : Nat) : List Char :=
  ['%', hexDigit (b / 16), hexDigit (b % 16)]

/-- The UTF-8 bytes of one character, by code point (standard encoding). -/
def utf8Bytes (c : Char) : List Nat :=
  let n := c.toNat
  if n < 128 then [n]
  else if n < 2048 then [192 + n / 64, 128 + n % 64]
  else if n < 65536 then [224 + n / 4096, 128 + (n / 64) % 64, 128 + n % 64]
  else [240 + n / 262144, 128 + (n / 4096) % 64, 128 + (n / 64) % 64, 128 + n % 64]

/-- Model of `urllib.parse.quote_plus` on one character: alphanumerics and `_.-~`
pass through, a space becomes `+`, anything else is percent-encoded
byte-wise (UTF-8). -/
def quotePlusChar (c : Char) : List Char :=
  if c.isAlphanum || c = '_' || c = '.' || c = '-' || c = '~' then [c]
  else if c = ' ' then ['+']
  else (utf8Bytes c).foldr (fun b acc => percentByte b ++ acc) []

def quotePlus (s : String) : String :=
  String.mk (s.toList.foldr (fun c acc => quotePlusChar c ++ acc) [])

/-- Model of `urllib.parse.urlencode` over an ordered pair list. -/
def urlencode (ps : List (String × String)) : String :=
  String.intercalate "&" (ps.map (fun p => quotePlus p.1 ++ "=" ++ quotePlus p.2))

/-- Embedding of `TokyoDev._build_jobs_url` (tokyodev.py lines 89-144): the
ordered query-parameter list.  (`if japanese_requirements:` skips both `None`
and an empty list; mapping over the empty list is the same.) -/
def tokyoDevBuildJobsParams (searchTerm : Option String) (isRemote : Bool)
    (minSalary : Option String)
    (japaneseRequirements : Option (List String))
    (englishRequirements : Option (List String))
    (applicantLocations : Option (List String))
    (seniorities : Option (List String))
    (categories : Option (List String)) : List (String × String) :=
  [("query[]", pyOrStr searchTerm "")]
  ++ (match japaneseRequirements with
      | some l => l.map (fun v => ("japanese_requirement[]", v))
      | none => [])
  ++ (match englishRequirements with
      | some l => l.map (fun v => ("english_requirement[]", v))
      | none => [])
  ++ (if isRemote then
        [("remote_policy[]", "fully_remote"), ("remote_policy[]", "partially_remote")]
      else [])
  ++ (match applicantLocations with
      | some l => l.map (fun v => ("applicant_location[]", v))
      | none => [])
  ++ (match seniorities with
      | some l => l.map (fun v => ("seniority[]", v))
      | none => [])
  ++ (match categories with
      | some l => l.map (fun v => ("category[]", v))
      | none => [])
  ++ [("salary", pyOrStr minSalary "")]

/-- The URL string `_build_jobs_url` returns. -/
def tokyoDevBuildJobsUrl (searchTerm : Option String) (isRemote : Bool)
    (minSalary : Option String)
    (japaneseRequirements : Option (List String))
    (englishRequirements : Option (List String))
    (applicantLocations : Option (List String))
    (seniorities : Option (List String))
    (categories : Option (List String)) : String :=
  tdBaseUrl ++ "/jobs?" ++ urlencode (tokyoDevBuildJobsParams searchTerm isRemote
    minSalary japaneseRequirements englishRequirements applicantLocations
    seniorities categories)

/-- The parameter defaults of `TokyoDev.scrape` (tokyodev.py lines 281-286):
`japanese_requirements=["none", "basic"]`. -/
def tdDefaultJapaneseRequirements : Option (List String) := some ["none", "basic"]

/-- Default `applicant_locations=["apply_from_abroad"]` (tokyodev.py line 284). -/
def tdDefaultApplicantLocations : Option (List String) := some ["apply_from_abroad"]

/-- Default `seniorities=["intern", "junior", "intermediate"]` (tokyodev.py
line 285). -/
def tdDefaultSeniorities : Option (List String) := some ["intern", "junior", "intermediate"]

/-- The query parameters `TokyoDev.scrape` passes to `_build_jobs_url` when
the caller supplies no filter arguments: every filter argument takes its
declared default (tokyodev.py lines 280-287, 310-318). -/
def tokyoDevScrapeParamsNoFilters (searchTerm : Option String) (isRemote : Bool) :
    List (String × String) :=
  tokyoDevBuildJobsParams searchTerm isRemote none tdDefaultJapaneseRequirements
    none tdDefaultApplicantLocations tdDefaultSeniorities none

/-- The listing URL `TokyoDev.scrape` navigates to when the caller supplies
no filter arguments. -/
def tokyoDevScrapeUrlNoFilters (searchTerm : Option String) (isRemote : Bool) : String :=
  tokyoDevBuildJobsUrl searchTerm isRemote none tdDefaultJapaneseRequirements
    none tdDefaultApplicantLocations tdDefaultSeniorities none

/-! ## Definitions modelled from the spec, for refinement comparison -/

/-- Modelled from the spec: the uncapped seed harvest of a listing scan —
every job row of every company card, in listing order.  (The spec's §4.4
describes the collected seeds this way before its "deduplicated ... then
truncated" step; the source has no uncapped harvest, so this is the claimed
pipeline's first stage.) -/
def specAllSeeds (cards : List TdCompanyCard) : List JobSeed :=
  cards.foldr (fun c acc => (c.items.filterMap (tdItemSeed c.companyName)) ++ acc) []

/-- Modelled from the spec: "Seeds are deduplicated by URL with first-seen
precedence, then truncated to the requested count" — the order of operations
claim C4 states, for comparison with the source's `tokyoDevExtractSeeds`. -/
def specDedupThenTruncate (cards : List TdCompanyCard) (n : Nat) : List JobSeed :=
  (dedupByUrl (specAllSeeds cards)).take n

/-! ## The filter toggle state machine -/

/-- One filter toggle control of the JapanDev filter panel, as
`JapanDev._click_filter` (japandev.py lines 186-222) sees it: whether its
selection-state check (the 2-second visibility wait plus class read, lines
193-203) succeeds, and whether its class list currently contains
`selected`.  Clicking the control toggles that state — the UI semantics the
filter panel implements. -/
structure Toggle where
  checkOk : Bool
  selected : Bool
deriving DecidableEq, Repr

/-- The retry loop of `_click_filter` (japandev.py lines 209-222): up to
`attemptsLeft` clicks; each click flips the toggle, and the `expect`
verification returns as soon as the control is selected.  Result: final
toggle state and the number of clicks issued. -/
def clickLoop (t : Toggle) : Nat → Nat → Toggle × Nat
  | 0, clicks => (t, clicks)
  | attemptsLeft + 1, clicks =>
    let t2 : Toggle := { t with selected := !t.selected }
    if t2.selected then (t2, clicks + 1)
    else clickLoop t2 attemptsLeft (clicks + 1)

/-- Embedding of `JapanDev._click_filter` (japandev.py lines 186-222): when
the state check succeeds and the control is already selected, return without
clicking; otherwise run up to 3 click attempts.  Result: final toggle state
and the number of clicks issued. -/
def clickFilter (t : Toggle) : Toggle × Nat :=
  if t.checkOk ∧ t.selected then (t, 0)
  else clickLoop t 3 0

/-! ## Concrete test environments

Small concrete environments used to instantiate the theorems below on
explicit inputs. -/

/-- A JapanDev call whose initial listing wait expires. -/
def jdEnvNoLoad : JdEnv :=
  { resultsWanted := 5, today := 0, initialLoadOk := false,
    searchSettleTimedOut := false, filtersSettleTimedOut := false,
    postFilterSettleTimedOut := false, cardsWaitTimedOut := false,
    primaryCards := [], secondaryCards := [] }

/-- A JapanDev call that loads, but whose post-filter settlement wait
(japandev.py line 375) expires. -/
def jdEnvSettleTimeout : JdEnv :=
  { jdEnvNoLoad with initialLoadOk := true, postFilterSettleTimedOut := true }

/-- A JapanDev call in which every guarded wait expires while the unguarded
one does not. -/
def jdEnvGuardedTimeouts : JdEnv :=
  { jdEnvNoLoad with
      initialLoadOk := true
      searchSettleTimedOut := true
      filtersSettleTimedOut := true
      cardsWaitTimedOut := true }

/-- A listing card whose detail visit raises. -/
def jdCardDetailFail : JdCard :=
  { anchorText := some " Dev ", href := some "/jobs/x",
    companyLogoAlt := some "Acme", detail := Except.error "nav failed" }

/-- A TokyoDev detail page that loads and yields minimal data. -/
def tdDetailPageOk : TdDetailPage :=
  { gotoOk := true, h1Text := some "Engineer", headerCompany := none,
    headerSalarySpans := [], headerTooltips := [], headerRemote := some false,
    prose := some "desc", bodyText := "body", applyHref := none }

/-- A TokyoDev detail page whose navigation raises. -/
def tdDetailPageFail : TdDetailPage :=
  { tdDetailPageOk with gotoOk := false }

def tdItemA : TdJobItem := { href := some "https://www.tokyodev.com/jobs/a", tags := [] }

def tdItemB : TdJobItem := { href := some "https://www.tokyodev.com/jobs/b", tags := [] }

/-- A company card exposing the same job URL twice, then a second URL. -/
def tdCardDup : TdCompanyCard := { companyName := some "Acme", items := [tdItemA, tdItemA, tdItemB] }

def tdCardSingle : TdCompanyCard := { companyName := some "Acme", items := [tdItemA] }

/-- The seed harvested from `tdCardSingle`. -/
def tdSeedA : JobSeed :=
  { jobUrl := "https://www.tokyodev.com/jobs/a", companyName := some "Acme",
    skills := [], isRemoteHint := false, salaryTextHint := none, tagTexts := [] }

/-- A TokyoDev call whose initial listing wait expires. -/
def tdEnvNoLoad : TdEnv :=
  { resultsWanted := 4, today := 0, initialLoadOk := false, listCards := [],
    detailOf := fun _ => tdDetailPageOk }

/-- A TokyoDev call exposing one seed whose detail navigation fails. -/
def tdEnvDetailFail : TdEnv :=
  { resultsWanted := 3, today := 5, initialLoadOk := true,
    listCards := [tdCardSingle], detailOf := fun _ => tdDetailPageFail }

/-- A TokyoDev call exposing one seed whose detail page loads. -/
def tdEnvOk : TdEnv :=
  { resultsWanted := 1, today := 7, initialLoadOk := true,
    listCards := [tdCardSingle], detailOf := fun _ => tdDetailPageOk }

/-- The record `tokyoDevScrape tdEnvOk` produces. -/
def tdJobA : JobPost :=
  { title := "Engineer", companyName := some "Acme",
    jobUrl := "https://www.tokyodev.com/jobs/a", jobUrlDirect := none,
    location := some { country := Country.japan, city := "Tokyo" },
    description := some "desc", compensation := none, datePosted := 7,
    isRemote := some false, jobType := some [], skills := some [] }

/-- Well-formedness of a parser result, as the spec's data model states it:
a produced record carries the site currency `"JPY"` and the yearly
interval. -/
def compWellFormed : Option Compensation → Prop
  | none => True
  | some c => c.currency = "JPY" ∧ c.interval = CompensationInterval.yearly

/-! # Lemmas -/

theorem capLoop_length_le {α : Type} (f : α → Option JobPost) (n : Nat)
    (xs : List α) (acc : List JobPost) (h : acc.length ≤ n) :
    (capLoop f n xs acc).length ≤ n := by
  induction xs generalizing acc with
  | nil => simpa [capLoop] using h
  | cons x xs ih =>
    simp only [capLoop]
    by_cases hlen : n ≤ acc.length
    · rw [if_pos hlen]; exact h
    · rw [if_neg hlen]
      cases hf : f x with
      | none => exact ih acc h
      | some j =>
        refine ih (acc ++ [j]) ?_
        simp only [List.length_append, List.length_cons, List.length_nil]
        omega

theorem capLoop_mem {α : Type} (f : α → Option JobPost) (n : Nat)
    (xs : List α) (acc : List JobPost) (j : JobPost)
    (hj : j ∈ capLoop f n xs acc) : j ∈ acc ∨ ∃ x, f x = some j := by
  induction xs generalizing acc with
  | nil => exact Or.inl (by simpa [capLoop] using hj)
  | cons x xs ih =>
    simp only [capLoop] at hj
    by_cases hlen : n ≤ acc.length
    · rw [if_pos hlen] at hj; exact Or.inl hj
    · rw [if_neg hlen] at hj
      cases hf : f x with
      | none => rw [hf] at hj; exact ih acc hj
      | some j2 =>
        rw [hf] at hj
        rcases ih (acc ++ [j2]) hj with hmem | hex
        · rcases List.mem_append.mp hmem with h1 | h2
          · exact Or.inl h1
          · refine Or.inr ⟨x, ?_⟩
            rw [hf, List.mem_singleton.mp h2]
        · exact Or.inr hex

theorem tdCollectItems_length_le (n : Nat) (cn : Option String)
    (its : List TdJobItem) (acc : List JobSeed) (h : acc.length ≤ n) :
    (tdCollectItems n cn its acc).length ≤ n := by
  induction its generalizing acc with
  | nil => simpa [tdCollectItems] using h
  | cons it its ih =>
    simp only [tdCollectItems]
    by_cases hlen : n ≤ acc.length
    · rw [if_pos hlen]; exact h
    · rw [if_neg hlen]
      cases tdItemSeed cn it with
      | none => exact ih acc h
      | some sd =>
        refine ih (acc ++ [sd]) ?_
        simp only [List.length_append, List.length_cons, List.length_nil]
        omega

theorem tdCollectCards_length_le (n : Nat) (cards : List TdCompanyCard)
    (acc : List JobSeed) (h : acc.length ≤ n) :
    (tdCollectCards n cards acc).length ≤ n := by
  induction cards generalizing acc with
  | nil => simpa [tdCollectCards] using h
  | cons c cs ih =>
    simp only [tdCollectCards]
    by_cases hlen : n ≤ acc.length
    · rw [if_pos hlen]; exact h
    · rw [if_neg hlen]
      exact ih _ (tdCollectItems_length_le n c.companyName c.items acc h)

theorem dedupByUrlAux_spec (l : List JobSeed) : ∀ seen : List String,
    List.Pairwise (fun a b => a.jobUrl ≠ b.jobUrl) (dedupByUrlAux seen l) ∧
    (∀ s ∈ dedupByUrlAux seen l, s.jobUrl ∉ seen) := by
  induction l with
  | nil => intro seen; simp [dedupByUrlAux]
  | cons s rest ih =>
    intro seen
    simp only [dedupByUrlAux]
    by_cases hs : s.jobUrl ∈ seen
    · rw [if_pos hs]; exact ih seen
    · rw [if_neg hs]
      obtain ⟨hpair, hmem⟩ := ih (s.jobUrl :: seen)
      refine ⟨List.pairwise_cons.mpr ⟨?_, hpair⟩, ?_⟩
      · intro t ht heq
        exact hmem t ht (by rw [heq]; exact List.mem_cons_self _ _)
      · intro t ht
        rcases List.mem_cons.mp ht with h1 | h2
        · rw [h1]; exact hs
        · intro hseen
          exact hmem t h2 (List.mem_cons_of_mem _ hseen)

theorem dedupByUrlAux_length_le (l : List JobSeed) : ∀ seen : List String,
    (dedupByUrlAux seen l).length ≤ l.length := by
  induction l with
  | nil => intro seen; simp [dedupByUrlAux]
  | cons s rest ih =>
    intro seen
    simp only [dedupByUrlAux]
    by_cases hs : s.jobUrl ∈ seen
    · rw [if_pos hs]
      exact Nat.le_succ_of_le (ih seen)
    · rw [if_neg hs]
      simpa using ih (s.jobUrl :: seen)

/-! # Claim theorems -/

/-- C1: for every scrape invocation with requested result count N ≥ 0, the
record collection returned by the scrape operation (`JapanDev.scrape`,
`TokyoDev.scrape`) has length at most N. -/
theorem c1_cap_invariant :
    (∀ (env : JdEnv) (jobs : List JobPost), japanDevScrape env = Except.ok jobs →
      jobs.length ≤ env.resultsWanted) ∧
    (∀ (env : TdEnv) (jobs : List JobPost), tokyoDevScrape env = Except.ok jobs →
      jobs.length ≤ env.resultsWanted) := by
  constructor
  · intro env jobs h
    unfold japanDevScrape at h
    split at h
    · cases h; simp
    · split at h
      · exact absurd h (by simp)
      · split at h
        · exact absurd h (by simp)
        · split at h
          · exact absurd h (by simp)
          · cases h
            exact capLoop_length_le _ _ _ [] (Nat.zero_le _)
  · intro env jobs h
    unfold tokyoDevScrape at h
    split at h
    · cases h; simp
    · cases h
      exact capLoop_length_le _ _ _ [] (Nat.zero_le _)

theorem c1_cap_invariant_witness :
    ([] : List JobPost).length ≤ jdEnvNoLoad.resultsWanted ∧
    ([tdJobA] : List JobPost).length ≤ tdEnvOk.resultsWanted :=
  ⟨c1_cap_invariant.1 jdEnvNoLoad [] (by decide),
   c1_cap_invariant.2 tdEnvOk [tdJobA] (by decide)⟩

/-- C4, counterexample: on a listing exposing the rows `[A, A, B]` with
requested count 2, the source collects up to the cap first (`[A, A]`) and
deduplicates afterwards, yielding the single seed `A`; the claim's
"deduplicated ... then truncated" order would yield `[A, B]`.  So the claim's
stated order of operations is false of the code. -/
theorem c4_counterexample :
    (tokyoDevExtractSeeds [tdCardDup] 2).map JobSeed.jobUrl =
      ["https://www.tokyodev.com/jobs/a"] ∧
    (specDedupThenTruncate [tdCardDup] 2).map JobSeed.jobUrl =
      ["https://www.tokyodev.com/jobs/a", "https://www.tokyodev.com/jobs/b"] ∧
    tokyoDevExtractSeeds [tdCardDup] 2 ≠ specDedupThenTruncate [tdCardDup] 2 := by
  refine ⟨by decide, by decide, by decide⟩

/-- C4 (amended): for every TokyoDev listing scan, the collected seed
sequence contains no two seeds sharing a detail URL, and its length never
exceeds the requested count; seeds are truncated to the requested count
during collection and only then deduplicated by URL with first-occurrence
precedence (so the scan can return fewer unique seeds than requested).
(`JapanDev.scrape` has no seed stage and performs no URL deduplication.) -/
theorem c4_seed_uniqueness (cards : List TdCompanyCard) (n : Nat) :
    List.Pairwise (fun a b => a.jobUrl ≠ b.jobUrl) (tokyoDevExtractSeeds cards n) ∧
    (tokyoDevExtractSeeds cards n).length ≤ n := by
  unfold tokyoDevExtractSeeds dedupByUrl
  refine ⟨(dedupByUrlAux_spec _ []).1, ?_⟩
  exact le_trans (dedupByUrlAux_length_le _ [])
    (tdCollectCards_length_le n cards [] (Nat.zero_le n))

/-- C8: if the initial listing markup never appears within the timeout
budget, the scrape aborts early and returns an empty result rather than
raising; the task is reported completed with zero records, not failed. -/
theorem c8_initial_timeout_empty :
    (∀ env : JdEnv, env.initialLoadOk = false →
      japanDevScrape env = Except.ok [] ∧
      reportTask (japanDevScrape env) = TaskStatus.completed 0 []) ∧
    (∀ env : TdEnv, env.initialLoadOk = false →
      tokyoDevScrape env = Except.ok [] ∧
      reportTask (tokyoDevScrape env) = TaskStatus.completed 0 []) := by
  constructor
  · intro env h
    have h1 : japanDevScrape env = Except.ok [] := by
      unfold japanDevScrape
      rw [if_pos h]
    exact ⟨h1, by rw [h1]; rfl⟩
  · intro env h
    have h1 : tokyoDevScrape env = Except.ok [] := by
      unfold tokyoDevScrape
      rw [if_pos h]
    exact ⟨h1, by rw [h1]; rfl⟩

theorem c8_initial_timeout_empty_witness :
    (japanDevScrape jdEnvNoLoad = Except.ok [] ∧
      reportTask (japanDevScrape jdEnvNoLoad) = TaskStatus.completed 0 []) ∧
    (tokyoDevScrape tdEnvNoLoad = Except.ok [] ∧
      reportTask (tokyoDevScrape tdEnvNoLoad) = TaskStatus.completed 0 []) :=
  ⟨c8_initial_timeout_empty.1 jdEnvNoLoad rfl,
   c8_initial_timeout_empty.2 tdEnvNoLoad rfl⟩

/-- C3 fails on the code: the network-settlement wait performed after all
filters are applied at japandev.py line 375 is NOT wrapped in `try/except`
(unlike its duplicate inside `_apply_filters`, lines 304-309), so its expiry
raises a `TimeoutError` that escapes `scrape`, and the task is reported
failed.  For contrast, a run in which every guarded wait expires still
completes with an (empty) result. -/
theorem c3_unguarded_settle_wait_fails_task :
    japanDevScrape jdEnvSettleTimeout = Except.error "TimeoutError" ∧
    reportTask (japanDevScrape jdEnvSettleTimeout) = TaskStatus.failed "TimeoutError" ∧
    japanDevScrape jdEnvGuardedTimeouts = Except.ok [] := by
  refine ⟨by decide, by decide, by decide⟩

/-- C7: a `FilterSpec` whose control is already selected when checked gets
zero clicks and stays selected, and re-applying `_click_filter` to a control
never leaves it unselected (the model's clicks toggle the control, the UI
semantics of the filter panel). -/
theorem c7_filter_idempotence (t : Toggle) :
    (t.checkOk = true → t.selected = true → clickFilter t = (t, 0)) ∧
    ((clickFilter (clickFilter t).1).1).selected = true := by
  cases t with
  | mk checkOk selected =>
    cases checkOk <;> cases selected <;> exact ⟨by decide, by decide⟩

theorem c7_filter_idempotence_witness :
    clickFilter { checkOk := true, selected := true } =
      ({ checkOk := true, selected := true }, 0) :=
  (c7_filter_idempotence { checkOk := true, selected := true }).1 rfl rfl

theorem spanDigits_fst_digits (l : List Char) : ∀ c ∈ (spanDigits l).1, c.isDigit = true := by
  induction l with
  | nil => intro c hc; simp [spanDigits] at hc
  | cons a cs ih =>
    intro c hc
    simp only [spanDigits] at hc
    by_cases h : a.isDigit = true
    · rw [if_pos h] at hc
      rcases List.mem_cons.mp hc with h1 | h2
      · rw [h1]; exact h
      · exact ih c h2
    · rw [if_neg h] at hc
      simp at hc

theorem spanDigits_of_all (l : List Char) (h : ∀ c ∈ l, c.isDigit = true) :
    spanDigits l = (l, []) := by
  induction l with
  | nil => rfl
  | cons a cs ih =>
    have ha : a.isDigit = true := h a (List.mem_cons_self _ _)
    have hcs := ih (fun c hc => h c (List.mem_cons_of_mem _ hc))
    simp [spanDigits, ha, hcs]

theorem spanDigits_append_stop (a : List Char) (d : Char) (r : List Char)
    (ha : ∀ c ∈ a, c.isDigit = true) (hd : d.isDigit = false) :
    spanDigits (a ++ d :: r) = (a, d :: r) := by
  induction a with
  | nil => simp [spanDigits, hd]
  | cons x xs ih =>
    have hx : x.isDigit = true := ha x (List.mem_cons_self _ _)
    have hxs := ih (fun c hc => ha c (List.mem_cons_of_mem _ hc))
    simp [spanDigits, hx, hxs]

theorem pyFloat_isSome_of_numTok (t : List Char) (h : NumTok t) :
    (pyFloat (String.mk t)).isSome = true := by
  rcases h with ⟨hne, hdig⟩ | ⟨a, b, rfl, hane, hbne, hadig, hbdig⟩
  · simp only [pyFloat]
    rw [show (String.mk t).toList = t from rfl]
    rw [spanDigits_of_all t hdig]
    simp [hne]
  · simp only [pyFloat]
    rw [show (String.mk (a ++ '.' :: b)).toList = a ++ '.' :: b from rfl]
    rw [spanDigits_append_stop a '.' b hadig (by decide)]
    simp [hane, hbne, spanDigits_of_all b hbdig]

theorem cons_spanDigits_digits (c : Char) (cs : List Char) (hc : c.isDigit = true) :
    ∀ x ∈ c :: (spanDigits cs).1, x.isDigit = true := by
  intro x hx
  rcases List.mem_cons.mp hx with h1 | h2
  · rw [h1]; exact hc
  · exact spanDigits_fst_digits cs x h2

theorem matchNum_fst_numTok (c : Char) (cs : List Char) (hc : c.isDigit = true) :
    NumTok (matchNum c cs).1 := by
  unfold matchNum
  by_cases h : (spanDigits cs).2.head? = some '.' ∧ (spanDigits ((spanDigits cs).2.tail)).1 ≠ []
  · rw [if_pos h]
    right
    exact ⟨c :: (spanDigits cs).1, (spanDigits ((spanDigits cs).2.tail)).1, rfl, by simp,
      h.2, cons_spanDigits_digits c cs hc, spanDigits_fst_digits _⟩
  · rw [if_neg h]
    left
    exact ⟨by simp, cons_spanDigits_digits c cs hc⟩

theorem matchNumM_fst_numTok (c : Char) (cs : List Char) (tok r : List Char)
    (hc : c.isDigit = true) (h : matchNumM c cs = some (tok, r)) : NumTok tok := by
  unfold matchNumM at h
  simp only [] at h
  by_cases hcond : (spanDigits cs).2.head? = some '.' ∧ (spanDigits ((spanDigits cs).2.tail)).1 ≠ []
  · rw [if_pos hcond] at h
    cases he : expectM ((spanDigits ((spanDigits cs).2.tail)).2) with
    | some r2 =>
      rw [he] at h
      simp only [Option.some.injEq, Prod.mk.injEq] at h
      obtain ⟨h1, -⟩ := h
      rw [← h1]
      right
      exact ⟨c :: (spanDigits cs).1, (spanDigits ((spanDigits cs).2.tail)).1, rfl, by simp,
        hcond.2, cons_spanDigits_digits c cs hc, spanDigits_fst_digits _⟩
    | none =>
      rw [he] at h
      simp only [] at h
      cases hm : expectM ((spanDigits cs).2) with
      | some r2 =>
        rw [hm] at h
        simp only [Option.some.injEq, Prod.mk.injEq] at h
        obtain ⟨h1, -⟩ := h
        rw [← h1]
        left
        exact ⟨by simp, cons_spanDigits_digits c cs hc⟩
      | none => rw [hm] at h; exact absurd h (by simp)
  · rw [if_neg hcond] at h
    simp only [] at h
    cases hm : expectM ((spanDigits cs).2) with
    | some r2 =>
      rw [hm] at h
      simp only [Option.some.injEq, Prod.mk.injEq] at h
      obtain ⟨h1, -⟩ := h
      rw [← h1]
      left
      exact ⟨by simp, cons_spanDigits_digits c cs hc⟩
    | none => rw [hm] at h; exact absurd h (by simp)

theorem findallNumFuel_numTok (fuel : Nat) :
    ∀ (l : List Char), ∀ t ∈ findallNumFuel fuel l, NumTok t := by
  induction fuel with
  | zero => intro l t ht; simp [findallNumFuel] at ht
  | succ fuel ih =>
    intro l t ht
    cases l with
    | nil => simp [findallNumFuel] at ht
    | cons c cs =>
      simp only [findallNumFuel] at ht
      by_cases hc : c.isDigit = true
      · rw [if_pos hc] at ht
        rcases List.mem_cons.mp ht with h1 | h2
        · rw [h1]; exact matchNum_fst_numTok c cs hc
        · exact ih _ t h2
      · rw [if_neg hc] at ht
        exact ih _ t ht

theorem findallNumMFuel_numTok (fuel : Nat) :
    ∀ (l : List Char), ∀ t ∈ findallNumMFuel fuel l, NumTok t := by
  induction fuel with
  | zero => intro l t ht; simp [findallNumMFuel] at ht
  | succ fuel ih =>
    intro l t ht
    cases l with
    | nil => simp [findallNumMFuel] at ht
    | cons c cs =>
      simp only [findallNumMFuel] at ht
      by_cases hc : c.isDigit = true
      · rw [if_pos hc] at ht
        cases hm : matchNumM c cs with
        | some p =>
          cases p with
          | mk tok2 r =>
            rw [hm] at ht
            rcases List.mem_cons.mp ht with h1 | h2
            · rw [h1]; exact matchNumM_fst_numTok c cs tok2 r hc hm
            · exact ih r t h2
        | none =>
          rw [hm] at ht
          exact ih cs t ht
      · rw [if_neg hc] at ht
        exact ih cs t ht

theorem japanDevParseAttempt_wf (toks : List String) (v : Option Compensation)
    (h : japanDevParseAttempt toks = Except.ok v) : compWellFormed v := by
  unfold japanDevParseAttempt at h
  repeat' split at h
  all_goals try simp only [] at h
  all_goals first
    | (injection h with h2; rw [← h2]; exact ⟨rfl, rfl⟩)
    | injection h

theorem japanDevParse_total (s : Option String) :
    ∃ r, japanDevParseSalaryToComp s = Except.ok r ∧ compWellFormed r := by
  cases s with
  | none => exact ⟨none, rfl, trivial⟩
  | some str =>
    simp only [japanDevParseSalaryToComp]
    by_cases h0 : str = ""
    · rw [if_pos h0]
      exact ⟨none, rfl, trivial⟩
    · rw [if_neg h0]
      by_cases h1 : ((findallNum (pyDropCommas str).toList).map String.mk).length < 1
      · rw [if_pos h1]
        exact ⟨none, rfl, trivial⟩
      · rw [if_neg h1]
        cases ha : japanDevParseAttempt ((findallNum (pyDropCommas str).toList).map String.mk) with
        | error e => exact ⟨none, rfl, trivial⟩
        | ok v => exact ⟨v, rfl, japanDevParseAttempt_wf _ v ha⟩

theorem floatAmounts_ok (nums : List String)
    (h : ∀ x ∈ nums, (pyFloat x).isSome = true) :
    ∃ vs, floatAmounts nums = Except.ok vs ∧ vs.length = nums.length := by
  induction nums with
  | nil => exact ⟨[], rfl, rfl⟩
  | cons x xs ih =>
    have hx := h x (List.mem_cons_self _ _)
    cases hpf : pyFloat x with
    | none => rw [hpf] at hx; simp at hx
    | some v =>
      obtain ⟨vs, hvs, hlen⟩ := ih (fun y hy => h y (List.mem_cons_of_mem _ hy))
      refine ⟨ratScale v 1000000 :: vs, ?_, by simp [hlen]⟩
      simp only [floatAmounts, hpf, hvs]

theorem tokyoDevParse_total (s : Option String) :
    ∃ r, tokyoDevParseSalaryToComp s = Except.ok r ∧ compWellFormed r := by
  cases s with
  | none => exact ⟨none, rfl, trivial⟩
  | some str =>
    simp only [tokyoDevParseSalaryToComp]
    by_cases h0 : str = ""
    · rw [if_pos h0]
      exact ⟨none, rfl, trivial⟩
    · rw [if_neg h0]
      by_cases h1 : (findallNumM (pyUpper (pyStrip (pyDropCommas str))).toList).map String.mk = []
      · rw [if_pos h1]
        exact ⟨none, rfl, trivial⟩
      · rw [if_neg h1]
        have htok : ∀ x ∈ (findallNumM (pyUpper (pyStrip (pyDropCommas str))).toList).map String.mk,
            (pyFloat x).isSome = true := by
          intro x hx
          obtain ⟨t, ht, rfl⟩ := List.mem_map.mp hx
          exact pyFloat_isSome_of_numTok t (findallNumMFuel_numTok _ _ t ht)
        obtain ⟨vs, hvs, hlen⟩ := floatAmounts_ok _ htok
        rw [hvs]
        cases vs with
        | nil =>
          exfalso
          apply h1
          rw [← List.length_eq_zero, ← hlen]
          rfl
        | cons v vs2 =>
          refine ⟨_, rfl, ?_, rfl⟩
          show (match (if strContains (pyStrip (pyDropCommas str)) "¥" ||
              strContains (pyUpper (pyStrip (pyDropCommas str))) "JPY" then some "JPY"
              else none : Option String) with
            | some c => c
            | none => "JPY") = "JPY"
          by_cases hcy : (strContains (pyStrip (pyDropCommas str)) "¥" ||
              strContains (pyUpper (pyStrip (pyDropCommas str))) "JPY") = true
          · rw [if_pos hcy]
          · rw [if_neg hcy]

/-- C6: for every input string, including empty, non-numeric and malformed
strings, each compensation parser either returns a well-formed record
(currency `"JPY"`, yearly interval) or none; it never raises — in the
embedding, the result is always `Except.ok`, never `Except.error`. -/
theorem c6_parser_totality (s : Option String) :
    (∃ r, japanDevParseSalaryToComp s = Except.ok r ∧ compWellFormed r) ∧
    (∃ r, tokyoDevParseSalaryToComp s = Except.ok r ∧ compWellFormed r) :=
  ⟨japanDevParse_total s, tokyoDevParse_total s⟩

/-- C5, counterexample: the claim says the parser extracts "the numeric
tokens that precede a magnitude suffix" and "returns none when zero such
tokens are found".  On `"5 days"` zero tokens precede a magnitude suffix
(second conjunct), yet the JapanDev parser — which scans for ALL numeric
tokens — returns a record of 5,000,000 JPY. -/
theorem c5_counterexample :
    japanDevParseSalaryToComp (some "5 days") =
      Except.ok (some { interval := CompensationInterval.yearly, minAmount := 5000000,
                        maxAmount := none, currency := "JPY" }) ∧
    findallNumM (pyUpper "5 days").toList = [] :=
  ⟨by decide, by decide⟩

/-- C5 (amended): the TokyoDev parser extracts the numeric tokens preceding
the magnitude suffix `M`, while the JapanDev parser extracts ALL numeric
tokens; both strip thousands separators, map the first token to the minimum
and the second to the maximum scaled by a million, always use currency JPY
and a yearly interval, and return none when no token is found.  The spec's
examples hold for both parsers. -/
theorem c5_parser_behaviour :
    (japanDevParseSalaryToComp (some "10M 14M yr") =
      Except.ok (some { interval := CompensationInterval.yearly, minAmount := 10000000,
                        maxAmount := some 14000000, currency := "JPY" })) ∧
    (tokyoDevParseSalaryToComp (some "10M 14M yr") =
      Except.ok (some { interval := CompensationInterval.yearly, minAmount := 10000000,
                        maxAmount := some 14000000, currency := "JPY" })) ∧
    (japanDevParseSalaryToComp (some "¥7.5M ~ ¥14M") =
      Except.ok (some { interval := CompensationInterval.yearly, minAmount := 7500000,
                        maxAmount := some 14000000, currency := "JPY" })) ∧
    (tokyoDevParseSalaryToComp (some "¥7.5M ~ ¥14M") =
      Except.ok (some { interval := CompensationInterval.yearly, minAmount := 7500000,
                        maxAmount := some 14000000, currency := "JPY" })) ∧
    (japanDevParseSalaryToComp (some "") = Except.ok none) ∧
    (tokyoDevParseSalaryToComp (some "") = Except.ok none) ∧
    (japanDevParseSalaryToComp (some "N/A") = Except.ok none) ∧
    (tokyoDevParseSalaryToComp (some "N/A") = Except.ok none) ∧
    ((findallNum (pyDropCommas "5 days").toList).map String.mk = ["5"]) ∧
    (tokyoDevParseSalaryToComp (some "5 days") = Except.ok none) :=
  ⟨by decide, by decide, by decide, by decide, by decide,
   by decide, by decide, by decide, by decide, by decide⟩

theorem pyOrStr_some_self (t : String) : pyOrStr (some t) t = t := by
  show (if t = "" then t else t) = t
  split <;> rfl

theorem pyOrS_self (a : Option String) : pyOrS a a = a := by
  cases a with
  | none => rfl
  | some s =>
    show (if s = "" then some s else some s) = some s
    split <;> rfl

/-- C2 (amended): for JapanDev, a card whose detail visit fails is not
discarded — the degraded record of japandev.py lines 418-426 is produced,
with title from the listing anchor text, location `"Japan"`, and posted date
today.  For TokyoDev, a seed whose detail navigation fails is logged and
dropped: no record is emitted for it. -/
theorem c2_degraded_detail (today : PyDate) (card : JdCard) (rawTitle href err : String)
    (hAnchor : card.anchorText = some rawTitle) (hHref : card.href = some href)
    (hne : href ≠ "") (hFail : card.detail = Except.error err) :
    japanDevProcessCard today card = some
      { title := pyStrip rawTitle
        companyName := card.companyLogoAlt
        jobUrl := pyUrljoin jdBaseUrl href
        jobUrlDirect := none
        location := some { country := Country.japan, city := "Japan" }
        description := none
        compensation := none
        datePosted := today
        isRemote := none
        jobType := none
        skills := none } ∧
    (∀ (seed : JobSeed) (dp : TdDetailPage), dp.gotoOk = false →
      tokyoDevProcessSeed today seed dp = none) := by
  constructor
  · unfold japanDevProcessCard
    rw [hAnchor]
    simp only []
    rw [hHref]
    simp only []
    rw [if_neg hne]
    rw [hFail]
    simp only [japanDevParseSalaryToComp, pyOrStr_some_self, pyOrS_self]
  · intro seed dp h
    unfold tokyoDevProcessSeed
    rw [if_pos h]

theorem c2_degraded_detail_witness :
    japanDevProcessCard 3 jdCardDetailFail = some
      { title := pyStrip " Dev "
        companyName := jdCardDetailFail.companyLogoAlt
        jobUrl := pyUrljoin jdBaseUrl "/jobs/x"
        jobUrlDirect := none
        location := some { country := Country.japan, city := "Japan" }
        description := none
        compensation := none
        datePosted := 3
        isRemote := none
        jobType := none
        skills := none } ∧
    tokyoDevProcessSeed 3 tdSeedA tdDetailPageFail = none :=
  ⟨(c2_degraded_detail 3 jdCardDetailFail " Dev " "/jobs/x" "nav failed" rfl rfl
      (by decide) rfl).1,
   (c2_degraded_detail 3 jdCardDetailFail " Dev " "/jobs/x" "nav failed" rfl rfl
      (by decide) rfl).2 tdSeedA tdDetailPageFail rfl⟩

/-- C2, counterexample: a TokyoDev listing exposing one seed whose detail
page fails to load yields an EMPTY record collection — the failed seed is
dropped, not replaced by a degraded record, contradicting the claim for
`TokyoDev.scrape`. -/
theorem c2_counterexample :
    tokyoDevExtractSeeds tdEnvDetailFail.listCards tdEnvDetailFail.resultsWanted = [tdSeedA] ∧
    tokyoDevScrape tdEnvDetailFail = Except.ok [] :=
  ⟨by decide, by decide⟩

theorem tokyoDevProcessSeed_datePosted (today : PyDate) (seed : JobSeed) (dp : TdDetailPage)
    (j : JobPost) (h : tokyoDevProcessSeed today seed dp = some j) : j.datePosted = today := by
  unfold tokyoDevProcessSeed at h
  repeat' split at h
  all_goals try simp only [] at h
  all_goals first
    | (injection h with h2; subst h2; rfl)
    | injection h

/-- C9: every `JobPost` produced by `TokyoDev.scrape` carries the date of
the scrape call as its posted date (`date.today()`, tokyodev.py line 398);
the enricher reads no posted date from the detail page (`TdDetailPage`
exposes none, because the source never queries one), so no record ever
carries the site's actual posting date. -/
theorem c9_tokyodev_posted_date (env : TdEnv) (jobs : List JobPost)
    (h : tokyoDevScrape env = Except.ok jobs) :
    ∀ j ∈ jobs, j.datePosted = env.today := by
  intro j hj
  unfold tokyoDevScrape at h
  split at h
  · cases h
    simp at hj
  · cases h
    rcases capLoop_mem _ _ _ [] j hj with h1 | ⟨sd, hsd⟩
    · simp at h1
    · exact tokyoDevProcessSeed_datePosted env.today sd (env.detailOf sd.jobUrl) j hsd

theorem c9_tokyodev_posted_date_witness : tdJobA.datePosted = tdEnvOk.today :=
  c9_tokyodev_posted_date tdEnvOk [tdJobA] (by decide) tdJobA (List.mem_singleton.mpr rfl)

set_option maxRecDepth 40000 in
/-- C10: when the caller of `TokyoDev.scrape` supplies no filter arguments,
the scrape is not unfiltered — the parameter defaults (Japanese requirement
"none"/"basic", applicant location "apply_from_abroad", seniorities
"intern"/"junior"/"intermediate") are always appended to the listing URL's
query, whatever the search term and remote flag. -/
theorem c10_default_filters (q : Option String) (r : Bool) :
    (("japanese_requirement[]", "none") ∈ tokyoDevScrapeParamsNoFilters q r) ∧
    (("japanese_requirement[]", "basic") ∈ tokyoDevScrapeParamsNoFilters q r) ∧
    (("applicant_location[]", "apply_from_abroad") ∈ tokyoDevScrapeParamsNoFilters q r) ∧
    (("seniority[]", "intern") ∈ tokyoDevScrapeParamsNoFilters q r) ∧
    (("seniority[]", "junior") ∈ tokyoDevScrapeParamsNoFilters q r) ∧
    (("seniority[]", "intermediate") ∈ tokyoDevScrapeParamsNoFilters q r) ∧
    tokyoDevScrapeUrlNoFilters none false =
      "https://www.tokyodev.com/jobs?query%5B%5D=&japanese_requirement%5B%5D=none&japanese_requirement%5B%5D=basic&applicant_location%5B%5D=apply_from_abroad&seniority%5B%5D=intern&seniority%5B%5D=junior&seniority%5B%5D=intermediate&salary=" := by
  refine ⟨?_, ?_, ?_, ?_, ?_, ?_, by decide⟩
  all_goals simp [tokyoDevScrapeParamsNoFilters, tokyoDevBuildJobsParams,
    tdDefaultJapaneseRequirements, tdDefaultApplicantLocations, tdDefaultSeniorities]

end JobSpy
